import Mathlib

/-!
Shallow embedding of the tracking/analytics store of `src/lib/simple-database.ts`
(the file-backed Store Backend, Analytics Engine and Tracking Façade of the
open-lovable local-model tracking core), together with theorems settling the
frozen claims about it.

Modelling conventions:
* JavaScript numbers are modelled as `ℚ` (all arithmetic the code performs on
  them is exact on the inputs of interest); record identifiers are `Int`.
* ISO timestamp strings (`created_at`, `scraped_at`), which the code only ever
  compares after parsing with `new Date(...).getTime()`, are modelled directly
  as `Nat` millisecond timestamps.
* `undefined`-able fields are `Option` fields.
* The durable JSON files are modelled as the two lists held in `Db`;
  `fs.writeFileSync` succeeding or throwing is modelled by the `writeOk` flag
  of `saveWebsiteW` / `saveCloneAttemptW` (the code catches the exception,
  logs it and continues, so no error value escapes).
* Divisions that the code performs without a zero guard are modelled with
  `jsDiv`, which reproduces IEEE behaviour on `ℚ` operands symbolically
  (`0/0 = NaN`, `x/0 = ±Infinity`); guarded divisions (whose divisor is
  provably nonzero on every path reaching them) use plain `ℚ` division.
-/

namespace SimpleDb

/-- The value of a JavaScript floating-point expression that may have left the
finite range: either a finite number (here exact, as `ℚ`), `NaN`, or a signed
infinity. -/
inductive JsNum where
  | num (q : ℚ)
  | nan
  | inf
  | negInf
deriving DecidableEq, Repr

/-- JavaScript division `a / b` on finite operands: division by zero yields
`NaN` when the dividend is also zero, otherwise a signed infinity. -/
def jsDiv (a b : ℚ) : JsNum :=
  if b = 0 then (if a = 0 then .nan else if 0 < a then .inf else .negInf)
  else .num (a / b)

/-- JavaScript `x || 0`: `NaN` is falsy and is replaced by `0`; a finite zero
is replaced by (the same) `0`; every other value is kept. -/
def jsOrZero : JsNum → JsNum
  | .nan => .num 0
  | x => x

/-- JavaScript `x * 100` on a possibly non-finite `x` (100 is positive, so
infinities keep their sign and `NaN` stays `NaN`). -/
def jsMul100 : JsNum → JsNum
  | .num q => .num (q * 100)
  | x => x

/-- The `Website` record of `simple-database.ts`. -/
structure Website where
  id : Int
  url : String
  title : String
  description : Option String := none
  markdown_content : Option String := none
  html_content : Option String := none
  screenshot_url : Option String := none
  scraped_at : Nat
  firecrawl_metadata : Option String := none
  status : String
deriving DecidableEq, Repr

/-- The `CloneAttempt` record of `simple-database.ts`. -/
structure CloneAttempt where
  id : Int
  website_id : Int
  model_used : String
  provider : String
  style_selected : Option String := none
  additional_instructions : Option String := none
  generated_code : Option String := none
  sandbox_url : Option String := none
  created_at : Nat
  status : String
  error_message : Option String := none
  generation_time_ms : Option ℚ := none
  code_size_bytes : Option ℚ := none
  component_count : Option ℚ := none
deriving DecidableEq, Repr

/-- The `ModelStats` value returned by `getModelStats`. -/
structure ModelStats where
  total_attempts : Nat
  success_rate : ℚ
  avg_generation_time_ms : ℚ
  avg_code_size_bytes : JsNum
  last_used : Option Nat := none
deriving DecidableEq, Repr

/-- A caller-supplied website, `Omit<Website, 'id'>`. -/
structure WebsiteInput where
  url : String
  title : String
  description : Option String := none
  markdown_content : Option String := none
  html_content : Option String := none
  screenshot_url : Option String := none
  scraped_at : Nat
  firecrawl_metadata : Option String := none
  status : String
deriving DecidableEq, Repr

/-- A caller-supplied clone attempt, `Omit<CloneAttempt, 'id'>`. -/
structure AttemptInput where
  website_id : Int
  model_used : String
  provider : String
  style_selected : Option String := none
  additional_instructions : Option String := none
  generated_code : Option String := none
  sandbox_url : Option String := none
  created_at : Nat
  status : String
  error_message : Option String := none
  generation_time_ms : Option ℚ := none
  code_size_bytes : Option ℚ := none
  component_count : Option ℚ := none
deriving DecidableEq, Repr

/-- The durable state of the store: the contents of `websites.json` and
`clone_attempts.json`. -/
structure Db where
  websites : List Website
  attempts : List CloneAttempt
deriving DecidableEq, Repr

/-- `getNextId`: `items.length > 0 ? Math.max(...items.map(i => i.id)) + 1 : 1`,
taking the list of existing ids. -/
def getNextId (ids : List Int) : Int :=
  match ids with
  | [] => 1
  | x :: xs => xs.foldl max x + 1

/-- Count of non-overlapping occurrences of the pattern `p` in `s`, scanning
left to right and resuming after the end of each match: the length of
`s.match(/p/g) || []` for a literal pattern `p`. -/
def countOccAux (p : List Char) : List Char → Nat
  | [] => 0
  | c :: rest =>
    if p ≠ [] ∧ p.isPrefixOf (c :: rest)
    then 1 + countOccAux p (List.drop (p.length - 1) rest)
    else countOccAux p rest
termination_by s => s.length
decreasing_by
  · simp only [List.length_drop, List.length_cons]
    omega
  · simp only [List.length_cons]
    omega

/-- String-level wrapper for `countOccAux`. -/
def countOcc (p s : String) : Nat :=
  countOccAux p.toList s.toList

/-- `attempt.generated_code?.length || 0`. -/
def jsCodeSize (g : Option String) : ℚ :=
  match g with
  | none => 0
  | some s => (s.length : ℚ)

/-- `(attempt.generated_code?.match(/export default function/g) || []).length`. -/
def jsComponentCount (g : Option String) : ℚ :=
  match g with
  | none => 0
  | some s => (countOcc "export default function" s : ℚ)

/-- The record built by `saveWebsite`: `{ ...website, id: getNextId(websites) }`. -/
def mkWebsite (w : WebsiteInput) (i : Int) : Website :=
  { id := i, url := w.url, title := w.title, description := w.description,
    markdown_content := w.markdown_content, html_content := w.html_content,
    screenshot_url := w.screenshot_url, scraped_at := w.scraped_at,
    firecrawl_metadata := w.firecrawl_metadata, status := w.status }

/-- The record built by `saveCloneAttempt`: the caller's fields with a fresh id
and the two derived fields overwritten. -/
def mkAttempt (a : AttemptInput) (i : Int) : CloneAttempt :=
  { id := i, website_id := a.website_id, model_used := a.model_used,
    provider := a.provider, style_selected := a.style_selected,
    additional_instructions := a.additional_instructions,
    generated_code := a.generated_code, sandbox_url := a.sandbox_url,
    created_at := a.created_at, status := a.status,
    error_message := a.error_message, generation_time_ms := a.generation_time_ms,
    code_size_bytes := some (jsCodeSize a.generated_code),
    component_count := some (jsComponentCount a.generated_code) }

/-- `saveWebsite`, with the outcome of the durable `fs.writeFileSync` made
explicit: `writeOk = false` models the write throwing, in which case the code
catches the exception, logs it, and still returns the fresh id, leaving the
file (the durable state) unchanged. -/
def saveWebsiteW (writeOk : Bool) (db : Db) (w : WebsiteInput) : Int × Db :=
  let websites := db.websites
  let newId := getNextId (websites.map (·.id))
  let newWebsites := websites ++ [mkWebsite w newId]
  (newId, if writeOk then { db with websites := newWebsites } else db)

/-- `saveWebsite` on the normal path (the durable write completes). -/
def saveWebsite (db : Db) (w : WebsiteInput) : Int × Db :=
  saveWebsiteW true db w

/-- `saveCloneAttempt`, with the outcome of the durable write made explicit,
as in `saveWebsiteW`. -/
def saveCloneAttemptW (writeOk : Bool) (db : Db) (a : AttemptInput) : Int × Db :=
  let attempts := db.attempts
  let newId := getNextId (attempts.map (·.id))
  let newAttempts := attempts ++ [mkAttempt a newId]
  (newId, if writeOk then { db with attempts := newAttempts } else db)

/-- `saveCloneAttempt` on the normal path (the durable write completes). -/
def saveCloneAttempt (db : Db) (a : AttemptInput) : Int × Db :=
  saveCloneAttemptW true db a

/-- `getWebsiteByUrl`: `websites.find(w => w.url === url) || null`. -/
def getWebsiteByUrl (db : Db) (url : String) : Option Website :=
  db.websites.find? (fun w => w.url == url)

/-- The attempts recorded for one model, before the newest-first sort:
`this.readAttempts().filter(a => a.model_used === name)`. -/
def attemptsForModel (db : Db) (M : String) : List CloneAttempt :=
  db.attempts.filter (fun a => a.model_used == M)

/-- The successful subset of a list of attempts:
`attempts.filter(a => a.status === 'success')`. -/
def successFilter (l : List CloneAttempt) : List CloneAttempt :=
  l.filter (fun a => a.status == "success")

/-- `getCloneAttemptsByModel`: filter by `model_used`, then sort newest-created
first (the JS comparator `new Date(b.created_at) - new Date(a.created_at)`,
as a stable sort on the parsed timestamps). -/
def getCloneAttemptsByModel (db : Db) (name : String) : List CloneAttempt :=
  (attemptsForModel db name).mergeSort
    (fun a b => decide (b.created_at ≤ a.created_at))

/-- `getModelStats`. The two divisions by `attempts.length` are guarded by the
early `null` return, so they are exact `ℚ` divisions; the division by
`successful.length` has no guard and is modelled with `jsDiv`. -/
def getModelStats (db : Db) (name : String) : Option ModelStats :=
  let attempts := getCloneAttemptsByModel db name
  if attempts.length = 0 then none
  else
    let successful := successFilter attempts
    let avgTime := (attempts.map (fun a => a.generation_time_ms.getD 0)).sum / (attempts.length : ℚ)
    let avgCodeSize := jsDiv ((successful.map (fun a => a.code_size_bytes.getD 0)).sum) ((successful.length : ℚ))
    some { total_attempts := attempts.length,
           success_rate := ((successful.length : ℚ) / (attempts.length : ℚ)) * 100,
           avg_generation_time_ms := avgTime,
           avg_code_size_bytes := avgCodeSize,
           last_used := attempts.head?.map (·.created_at) }

/-- One row of `getProviderComparison`. Every numeric field is a `JsNum`
because none of the divisions in that method is guarded. -/
structure ProviderEntry where
  provider : String
  total_attempts : Nat
  success_rate : JsNum
  avg_generation_time : JsNum
  avg_code_size : JsNum
deriving DecidableEq, Repr

/-- `Array.from(new Set(l))`: the distinct elements of `l` in first-occurrence
order (a JS `Set` iterates in insertion order). -/
def setDedup : List String → List String
  | [] => []
  | x :: xs => x :: setDedup (xs.filter (fun y => y != x))
termination_by l => l.length
decreasing_by
  simp only [List.length_cons]
  exact Nat.lt_succ_of_le (List.length_filter_le _ _)

/-- The row `getProviderComparison` builds for one provider. -/
def providerEntry (attempts : List CloneAttempt) (p : String) : ProviderEntry :=
  let pa := attempts.filter (fun a => a.provider == p)
  let successful := pa.filter (fun a => a.status == "success")
  { provider := p,
    total_attempts := pa.length,
    success_rate := jsMul100 (jsDiv (successful.length : ℚ) (pa.length : ℚ)),
    avg_generation_time := jsDiv ((pa.map (fun a => a.generation_time_ms.getD 0)).sum) (pa.length : ℚ),
    avg_code_size := jsOrZero (jsDiv ((successful.map (fun a => a.code_size_bytes.getD 0)).sum) (successful.length : ℚ)) }

/-- The sort comparator `(a, b) => b.success_rate - a.success_rate` (descending
success rate); only its behaviour on finite rates matters, as every row built
by `getProviderComparison` has a nonempty attempt list. -/
def entryLe (a b : ProviderEntry) : Bool :=
  match a.success_rate, b.success_rate with
  | .num x, .num y => decide (y ≤ x)
  | _, _ => true

/-- `getProviderComparison`. -/
def getProviderComparison (db : Db) : List ProviderEntry :=
  let attempts := db.attempts
  let providers := setDedup (attempts.map (·.provider))
  (providers.map (fun p => providerEntry attempts p)).mergeSort entryLe

/-- JS `String.prototype.split` with a single-character separator. -/
def splitOnChar (sep : Char) : List Char → List (List Char)
  | [] => [[]]
  | c :: rest =>
    if c = sep then [] :: splitOnChar sep rest
    else
      match splitOnChar sep rest with
      | [] => [[c]]
      | t :: ts => (c :: t) :: ts

/-- Provider derivation in `trackWebsiteClone`:
`modelUsed.includes('/') ? modelUsed.split('/')[0] : 'unknown'`. -/
def deriveProvider (m : String) : String :=
  if m.toList.contains '/' then String.mk ((splitOnChar '/' m.toList).headD [])
  else "unknown"

/-- The Tracking Façade `trackWebsiteClone`. The wall-clock timestamps the code
takes (`new Date().toISOString()`) are passed in as `now`. -/
def trackWebsiteClone (url modelUsed generatedCode : String) (generationTimeMs : ℚ)
    (status : String) (errorMessage : Option String) (now : Nat) (db : Db) : Int × Db :=
  let found := getWebsiteByUrl db url
  let step :=
    match found with
    | some w => (w.id, db)
    | none =>
        saveWebsite db
          { url := url, title := "Website: " ++ url,
            description := some "Scraped for cloning",
            scraped_at := now, status := "scraped" }
  saveCloneAttempt step.2
    { website_id := step.1, model_used := modelUsed,
      provider := deriveProvider modelUsed,
      generated_code := some generatedCode, created_at := now,
      status := status, error_message := errorMessage,
      generation_time_ms := some generationTimeMs }

/-- `exportData`: the full raw contents of both collections. -/
def exportData (db : Db) : List Website × List CloneAttempt :=
  (db.websites, db.attempts)

/-- Sequentially save a batch of websites, keeping the final state. -/
def saveWebsites (db : Db) (ws : List WebsiteInput) : Db :=
  ws.foldl (fun d w => (saveWebsite d w).2) db

/-- Sequentially save a batch of clone attempts, keeping the final state. -/
def saveAttempts (db : Db) (as' : List AttemptInput) : Db :=
  as'.foldl (fun d a => (saveCloneAttempt d a).2) db

/-- Forget a stored website's allocated id, recovering the caller-supplied
fields. -/
def stripWebsite (w : Website) : WebsiteInput :=
  { url := w.url, title := w.title, description := w.description,
    markdown_content := w.markdown_content, html_content := w.html_content,
    screenshot_url := w.screenshot_url, scraped_at := w.scraped_at,
    firecrawl_metadata := w.firecrawl_metadata, status := w.status }

/-- Forget a stored attempt's allocated id, recovering its remaining fields. -/
def stripAttempt (a : CloneAttempt) : AttemptInput :=
  { website_id := a.website_id, model_used := a.model_used, provider := a.provider,
    style_selected := a.style_selected,
    additional_instructions := a.additional_instructions,
    generated_code := a.generated_code, sandbox_url := a.sandbox_url,
    created_at := a.created_at, status := a.status,
    error_message := a.error_message, generation_time_ms := a.generation_time_ms,
    code_size_bytes := a.code_size_bytes, component_count := a.component_count }

/-- What `saveCloneAttempt` stores for a given input: the input with its two
derived fields overwritten from `generated_code`. -/
def deriveAttempt (a : AttemptInput) : AttemptInput :=
  { a with code_size_bytes := some (jsCodeSize a.generated_code),
           component_count := some (jsComponentCount a.generated_code) }

/-! ### Helper lemmas -/

theorem le_foldl_max (xs : List Int) (x : Int) : x ≤ xs.foldl max x := by
  induction xs generalizing x with
  | nil => exact le_refl x
  | cons z zs ih =>
    exact le_trans (le_max_left x z) (ih (max x z))

theorem mem_le_foldl_max {y : Int} (xs : List Int) (x : Int) (h : y ∈ xs) :
    y ≤ xs.foldl max x := by
  induction xs generalizing x with
  | nil => cases h
  | cons z zs ih =>
    rcases List.mem_cons.mp h with rfl | h'
    · exact le_trans (le_max_right x y) (le_foldl_max zs (max x y))
    · exact ih _ h'

theorem foldl_max_mem (xs : List Int) (x : Int) :
    xs.foldl max x = x ∨ xs.foldl max x ∈ xs := by
  induction xs generalizing x with
  | nil => exact Or.inl rfl
  | cons z zs ih =>
    rcases ih (max x z) with h | h
    · rcases max_choice x z with hc | hc
      · exact Or.inl (by rw [List.foldl_cons, h, hc])
      · exact Or.inr (by rw [List.foldl_cons, h, hc]; exact List.mem_cons_self z zs)
    · exact Or.inr (List.mem_cons_of_mem z h)

/-- Every existing id is strictly below the freshly allocated one. -/
theorem lt_getNextId {ids : List Int} {i : Int} (h : i ∈ ids) : i < getNextId ids := by
  match ids with
  | [] => cases h
  | x :: xs =>
    show i < xs.foldl max x + 1
    rcases List.mem_cons.mp h with rfl | h'
    · exact lt_of_le_of_lt (le_foldl_max xs i) (lt_add_one _)
    · exact lt_of_le_of_lt (mem_le_foldl_max xs x h') (lt_add_one _)

/-- On a nonempty collection the freshly allocated id is `max + 1`: its
predecessor is one of the existing ids. -/
theorem getNextId_sub_one_mem {ids : List Int} (h : ids ≠ []) :
    getNextId ids - 1 ∈ ids := by
  match ids with
  | [] => exact absurd rfl h
  | x :: xs =>
    show xs.foldl max x + 1 - 1 ∈ x :: xs
    rw [add_sub_cancel_right]
    rcases foldl_max_mem xs x with h | h
    · rw [h]; exact List.mem_cons_self x xs
    · exact List.mem_cons_of_mem x h

/-- Unguarded division with a provably nonzero divisor is finite. -/
theorem jsDiv_of_ne_zero {a b : ℚ} (h : b ≠ 0) : jsDiv a b = .num (a / b) := by
  simp [jsDiv, h]

/-- `setDedup` preserves membership: a JS `Set` holds exactly the elements of
the array it was built from. -/
theorem mem_setDedup (l : List String) (a : String) : a ∈ setDedup l ↔ a ∈ l := by
  induction l using setDedup.induct with
  | case1 => simp [setDedup]
  | case2 x xs ih =>
    rw [setDedup]
    constructor
    · intro h
      rcases List.mem_cons.mp h with rfl | h'
      · exact List.mem_cons_self _ _
      · exact List.mem_cons_of_mem x (List.mem_of_mem_filter (ih.mp h'))
    · intro h
      rcases List.mem_cons.mp h with rfl | h'
      · exact List.mem_cons_self _ _
      · by_cases hax : a = x
        · exact hax ▸ List.mem_cons_self _ _
        · exact List.mem_cons_of_mem x
            (ih.mpr (List.mem_filter.mpr ⟨h', by simp [bne_iff_ne, hax]⟩))

theorem splitOnChar_ne_nil (sep : Char) (l : List Char) : splitOnChar sep l ≠ [] := by
  match l with
  | [] => simp [splitOnChar]
  | c :: rest =>
    rw [splitOnChar]
    by_cases h : c = sep
    · simp [h]
    · simp only [h, if_false]
      cases splitOnChar sep rest <;> simp

/-- The first field of a split is the longest separator-free leading run:
`s.split(sep)[0]` is `takeWhile (· ≠ sep) s`. -/
theorem headD_splitOnChar (sep : Char) (l : List Char) :
    (splitOnChar sep l).headD [] = l.takeWhile (fun c => c != sep) := by
  induction l with
  | nil => rfl
  | cons c rest ih =>
    rw [splitOnChar]
    by_cases h : c = sep
    · simp [h]
    · simp only [h, if_false, List.takeWhile_cons]
      have hne : (c != sep) = true := by simp [bne_iff_ne, h]
      rw [hne]
      simp only [if_true]
      rcases hsp : splitOnChar sep rest with _ | ⟨t, ts⟩
      · exact absurd hsp (splitOnChar_ne_nil sep rest)
      · simp only [List.headD_cons]
        have : t = (splitOnChar sep rest).headD [] := by rw [hsp]; rfl
        rw [this, ih]

/-- `deriveProvider` written the way the spec states it: the characters of the
model identifier preceding the first `'/'`, or `"unknown"` when there is no
`'/'`. -/
theorem deriveProvider_eq_takeWhile (m : String) :
    deriveProvider m =
      (if m.toList.contains '/' then String.mk (m.toList.takeWhile (fun c => c != '/'))
       else "unknown") := by
  rw [deriveProvider, headD_splitOnChar]

theorem saveWebsite_fst (db : Db) (w : WebsiteInput) :
    (saveWebsite db w).1 = getNextId (db.websites.map (·.id)) := rfl

theorem saveWebsite_websites (db : Db) (w : WebsiteInput) :
    (saveWebsite db w).2.websites
      = db.websites ++ [mkWebsite w (getNextId (db.websites.map (·.id)))] := rfl

theorem saveWebsite_attempts (db : Db) (w : WebsiteInput) :
    (saveWebsite db w).2.attempts = db.attempts := rfl

theorem saveCloneAttempt_fst (db : Db) (a : AttemptInput) :
    (saveCloneAttempt db a).1 = getNextId (db.attempts.map (·.id)) := rfl

theorem saveCloneAttempt_attempts (db : Db) (a : AttemptInput) :
    (saveCloneAttempt db a).2.attempts
      = db.attempts ++ [mkAttempt a (getNextId (db.attempts.map (·.id)))] := rfl

theorem saveCloneAttempt_websites (db : Db) (a : AttemptInput) :
    (saveCloneAttempt db a).2.websites = db.websites := rfl

/-! ### Concrete fixtures -/

/-- The freshly initialised store: two empty collections. -/
def db0 : Db := ⟨[], []⟩

/-- A minimal website input with URL `"u"`. -/
def wU : WebsiteInput :=
  { url := "u", title := "t", scraped_at := 0, status := "scraped" }

/-- A website input whose URL is the empty string. -/
def wUrlEmpty : WebsiteInput :=
  { url := "", title := "t", scraped_at := 0, status := "scraped" }

/-- An attempt input whose `website_id` (7) references no stored website. -/
def aDangling : AttemptInput :=
  { website_id := 7, model_used := "m", provider := "p", created_at := 0,
    status := "success" }

/-- An attempt input with `website_id = 0`. -/
def aZero : AttemptInput :=
  { website_id := 0, model_used := "m", provider := "p", created_at := 0,
    status := "success" }

/-- A store holding one website (id 1) and one attempt (id 1). -/
def dbW : Db := ⟨[mkWebsite wU 1], [mkAttempt aDangling 1]⟩

/-! ### Claims -/

/-- C1, counterexample to the claim as stated: on an empty store (so
`website_id = 7` references no existing website) `saveCloneAttempt` does not
fail, returns id 1, and the attempt collection grows from 0 to 1 records —
the claim demands a `ReferentialError` with the collection left unchanged. -/
theorem saveCloneAttempt_dangling_cex :
    (∀ w ∈ db0.websites, w.id ≠ aDangling.website_id) ∧
    db0.attempts.length = 0 ∧
    (saveCloneAttempt db0 aDangling).1 = 1 ∧
    (saveCloneAttempt db0 aDangling).2.attempts.length = 1 := by
  refine ⟨fun w hw => absurd hw (by simp [db0]), rfl, rfl, rfl⟩

/-- C1 (amended): `saveCloneAttempt` performs no referential check at all:
even when `website_id` references no existing website, the call succeeds,
returns the freshly allocated id, and appends the record. -/
theorem saveCloneAttempt_ignores_dangling_ref (db : Db) (a : AttemptInput)
    (_h : ∀ w ∈ db.websites, w.id ≠ a.website_id) :
    (saveCloneAttempt db a).1 = getNextId (db.attempts.map (·.id)) ∧
    (saveCloneAttempt db a).2.attempts
      = db.attempts ++ [mkAttempt a (getNextId (db.attempts.map (·.id)))] ∧
    (saveCloneAttempt db a).2.websites = db.websites :=
  ⟨rfl, rfl, rfl⟩

/-- C1 witness: the amended theorem applied to the empty store and the
dangling attempt input. -/
theorem saveCloneAttempt_ignores_dangling_ref_witness :
    (∀ w ∈ db0.websites, w.id ≠ aDangling.website_id) ∧
    ((saveCloneAttempt db0 aDangling).1 = getNextId (db0.attempts.map (·.id)) ∧
     (saveCloneAttempt db0 aDangling).2.attempts
       = db0.attempts ++ [mkAttempt aDangling (getNextId (db0.attempts.map (·.id)))] ∧
     (saveCloneAttempt db0 aDangling).2.websites = db0.websites) :=
  ⟨fun w hw => absurd hw (by simp [db0]),
   saveCloneAttempt_ignores_dangling_ref db0 aDangling
     (fun w hw => absurd hw (by simp [db0]))⟩

/-- C4, counterexample to the claim as stated: when the durable write cannot
complete (`writeOk = false`), neither save operation surfaces any failure —
each returns the freshly allocated identifier (1 on the empty store) exactly
as if it had succeeded. -/
theorem writeFailure_cex :
    saveWebsiteW false db0 wU = (1, db0) ∧
    saveCloneAttemptW false db0 aDangling = (1, db0) :=
  ⟨rfl, rfl⟩

/-- C4 (amended): if the durable write cannot complete, the error is caught
and logged rather than surfaced: the operation still returns the freshly
allocated identifier as if it had succeeded, while the prior durable state
remains intact (the failed write leaves both collections unchanged). -/
theorem writeFailure_swallowed (db : Db) (w : WebsiteInput) (a : AttemptInput) :
    saveWebsiteW false db w = (getNextId (db.websites.map (·.id)), db) ∧
    saveCloneAttemptW false db a = (getNextId (db.attempts.map (·.id)), db) :=
  ⟨rfl, rfl⟩

/-- C5, counterexample to the claim as stated: a website with an empty `url`
and an attempt with `website_id = 0` are both stored, each growing its
collection from 0 to 1 records — the claim demands both be rejected with the
collections unchanged. -/
theorem noValidation_cex :
    (saveWebsite db0 wUrlEmpty).2.websites = [mkWebsite wUrlEmpty 1] ∧
    (mkWebsite wUrlEmpty 1).url = "" ∧
    (saveCloneAttempt db0 aZero).2.attempts = [mkAttempt aZero 1] ∧
    (mkAttempt aZero 1).website_id = 0 :=
  ⟨rfl, rfl, rfl, rfl⟩

/-- C5 (amended): no field validation is performed before a write: a website
whose `url` is the empty string is appended and stored with that empty URL,
and an attempt whose `website_id` is zero or negative is appended and stored
with that `website_id`. -/
theorem noValidation (db : Db) (w : WebsiteInput) (a : AttemptInput) :
    (w.url = "" →
      (saveWebsite db w).2.websites.length = db.websites.length + 1 ∧
      ((saveWebsite db w).2.websites.getLast?).map (·.url) = some "") ∧
    (a.website_id ≤ 0 →
      (saveCloneAttempt db a).2.attempts.length = db.attempts.length + 1 ∧
      ((saveCloneAttempt db a).2.attempts.getLast?).map (·.website_id)
        = some a.website_id) := by
  constructor
  · intro hurl
    refine ⟨by simp [saveWebsite, saveWebsiteW], ?_⟩
    show ((db.websites ++ [mkWebsite w _]).getLast?).map (·.url) = some ""
    rw [List.getLast?_concat]
    simp [mkWebsite, hurl]
  · intro _
    refine ⟨by simp [saveCloneAttempt, saveCloneAttemptW], ?_⟩
    show ((db.attempts ++ [mkAttempt a _]).getLast?).map (·.website_id)
      = some a.website_id
    rw [List.getLast?_concat]
    simp [mkAttempt]

/-- C5 witness: the amended theorem applied to the empty store, the empty-URL
website input and the zero-id attempt input. -/
theorem noValidation_witness :
    (wUrlEmpty.url = "" ∧
      (saveWebsite db0 wUrlEmpty).2.websites.length = db0.websites.length + 1) ∧
    (aZero.website_id ≤ 0 ∧
      (saveCloneAttempt db0 aZero).2.attempts.length = db0.attempts.length + 1) :=
  ⟨⟨rfl, ((noValidation db0 wUrlEmpty aZero).1 rfl).1⟩,
   ⟨le_refl 0, ((noValidation db0 wUrlEmpty aZero).2 (le_refl 0)).1⟩⟩

/-- C3, counterexample to the claim as stated: two direct `saveWebsite` calls
with the same URL starting from the empty store leave two distinct records
that share the URL `"u"` — uniqueness of `Website.url` is not maintained
under arbitrary store operations. -/
theorem urlUnique_cex :
    (saveWebsite (saveWebsite db0 wU).2 wU).2.websites
      = [mkWebsite wU 1, mkWebsite wU 2] ∧
    (mkWebsite wU 1).url = (mkWebsite wU 2).url ∧
    mkWebsite wU 1 ≠ mkWebsite wU 2 := by
  refine ⟨rfl, rfl, by decide⟩

/-- C3 (amended): the find-or-create discipline holds only for the Tracking
Façade: `trackWebsiteClone` reuses the existing website when one with the
requested URL is stored (creating none), and creates exactly one website with
that URL otherwise. The store operation `saveWebsite` itself performs no URL
uniqueness check, so direct calls can duplicate URLs. -/
theorem trackWebsiteClone_findOrCreate (url modelUsed generatedCode : String)
    (t : ℚ) (status : String) (err : Option String) (now : Nat) (db : Db) :
    ((∃ w ∈ db.websites, w.url = url) →
      (trackWebsiteClone url modelUsed generatedCode t status err now db).2.websites
        = db.websites) ∧
    ((¬ ∃ w ∈ db.websites, w.url = url) →
      ∃ nw,
        (trackWebsiteClone url modelUsed generatedCode t status err now db).2.websites
          = db.websites ++ [nw] ∧ nw.url = url) := by
  constructor
  · intro h
    have hsome : (getWebsiteByUrl db url).isSome := by
      rw [getWebsiteByUrl]
      exact List.find?_isSome.mpr (let ⟨w, hw, he⟩ := h; ⟨w, hw, by simp [he]⟩)
    obtain ⟨w, hw⟩ := Option.isSome_iff_exists.mp hsome
    simp only [trackWebsiteClone, hw, saveCloneAttempt_websites]
  · intro h
    have hnone : getWebsiteByUrl db url = none := by
      rw [getWebsiteByUrl, List.find?_eq_none]
      intro w hw
      simp only [beq_iff_eq]
      exact fun he => h ⟨w, hw, he⟩
    refine ⟨mkWebsite
      { url := url, title := "Website: " ++ url,
        description := some "Scraped for cloning",
        scraped_at := now, status := "scraped" }
      (getNextId (db.websites.map (·.id))), ?_, rfl⟩
    simp only [trackWebsiteClone, hnone, saveCloneAttempt_websites,
      saveWebsite_websites]

/-- C3 witness: on a store already holding a website with URL `"u"`, the
amended theorem shows a façade call for `"u"` leaves the website collection
unchanged. -/
theorem trackWebsiteClone_findOrCreate_witness :
    (∃ w ∈ dbW.websites, w.url = "u") ∧
    (trackWebsiteClone "u" "m" "" 0 "success" none 0 dbW).2.websites
      = dbW.websites := by
  have hx : ∃ w ∈ dbW.websites, w.url = "u" :=
    ⟨mkWebsite wU 1, by simp [dbW], rfl⟩
  exact ⟨hx, (trackWebsiteClone_findOrCreate "u" "m" "" 0 "success" none 0 dbW).1 hx⟩

/-- C7: on every façade call, the attempt appended by `trackWebsiteClone`
carries as provider the characters of the model identifier preceding the
first `'/'`, or the sentinel `"unknown"` when the identifier contains no
`'/'`; in particular `"ollama/llama3.2:7b"` yields `"ollama"` and
`"customModel"` yields `"unknown"`. -/
theorem trackWebsiteClone_provider_spec :
    (∀ (url m g : String) (t : ℚ) (st : String) (e : Option String) (now : Nat)
        (db : Db),
      ∃ a, (trackWebsiteClone url m g t st e now db).2.attempts.getLast? = some a ∧
        a.provider = (if m.toList.contains '/'
          then String.mk (m.toList.takeWhile (fun c => c != '/'))
          else "unknown")) ∧
    ((trackWebsiteClone "u" "ollama/llama3.2:7b" "" 0 "success" none 0
        db0).2.attempts.getLast?).map (·.provider) = some "ollama" ∧
    ((trackWebsiteClone "u" "customModel" "" 0 "success" none 0
        db0).2.attempts.getLast?).map (·.provider) = some "unknown" := by
  refine ⟨?_, rfl, rfl⟩
  intro url m g t st e now db
  rw [← deriveProvider_eq_takeWhile]
  cases hf : getWebsiteByUrl db url with
  | some w =>
    refine ⟨mkAttempt
      { website_id := w.id, model_used := m, provider := deriveProvider m,
        generated_code := some g, created_at := now, status := st,
        error_message := e, generation_time_ms := some t }
      (getNextId (db.attempts.map (·.id))), ?_, rfl⟩
    simp only [trackWebsiteClone, hf, saveCloneAttempt_attempts]
    exact List.getLast?_concat _
  | none =>
    refine ⟨mkAttempt
      { website_id := getNextId (db.websites.map (·.id)), model_used := m,
        provider := deriveProvider m, generated_code := some g,
        created_at := now, status := st, error_message := e,
        generation_time_ms := some t }
      (getNextId (db.attempts.map (·.id))), ?_, rfl⟩
    simp only [trackWebsiteClone, hf, saveCloneAttempt_attempts,
      saveWebsite_attempts, saveWebsite_fst]
    exact List.getLast?_concat _

/-- A freshly allocated id never collides with an existing one. -/
theorem nextId_fresh (ids : List Int) : ∀ i ∈ ids, i ≠ getNextId ids :=
  fun _ hi => ne_of_lt (lt_getNextId hi)

/-- Appending the freshly allocated id preserves distinctness. -/
theorem nodup_append_nextId {ids : List Int} (h : ids.Nodup) :
    (ids ++ [getNextId ids]).Nodup := by
  refine List.Nodup.append h (List.nodup_singleton _) ?_
  intro i hi hmem
  exact nextId_fresh ids i hi (List.mem_singleton.mp hmem)

/-- C8: the identifier allocated by `saveWebsite` / `saveCloneAttempt` is 1 on
an empty collection and otherwise one more than the maximum existing
identifier (its predecessor is an existing id that bounds all ids from
above); consequently the new id collides with no existing id, and
distinctness of identifiers is preserved by every sequential create. -/
theorem idAllocation_spec (db : Db) (w : WebsiteInput) (a : AttemptInput) :
    (db.websites = [] → (saveWebsite db w).1 = 1) ∧
    (db.websites ≠ [] →
      ((saveWebsite db w).1 - 1) ∈ db.websites.map (·.id) ∧
      ∀ i ∈ db.websites.map (·.id), i ≤ (saveWebsite db w).1 - 1) ∧
    (∀ i ∈ db.websites.map (·.id), i ≠ (saveWebsite db w).1) ∧
    ((db.websites.map (·.id)).Nodup →
      ((saveWebsite db w).2.websites.map (·.id)).Nodup) ∧
    (db.attempts = [] → (saveCloneAttempt db a).1 = 1) ∧
    (db.attempts ≠ [] →
      ((saveCloneAttempt db a).1 - 1) ∈ db.attempts.map (·.id) ∧
      ∀ i ∈ db.attempts.map (·.id), i ≤ (saveCloneAttempt db a).1 - 1) ∧
    (∀ i ∈ db.attempts.map (·.id), i ≠ (saveCloneAttempt db a).1) ∧
    ((db.attempts.map (·.id)).Nodup →
      ((saveCloneAttempt db a).2.attempts.map (·.id)).Nodup) := by
  refine ⟨?_, ?_, ?_, ?_, ?_, ?_, ?_, ?_⟩
  · intro h
    rw [saveWebsite_fst, h]
    rfl
  · intro h
    have hm : db.websites.map (·.id) ≠ [] := by
      simpa using h
    rw [saveWebsite_fst]
    exact ⟨getNextId_sub_one_mem hm,
      fun i hi => Int.le_sub_one_of_lt (lt_getNextId hi)⟩
  · rw [saveWebsite_fst]
    exact nextId_fresh _
  · intro h
    rw [saveWebsite_websites, List.map_append]
    exact nodup_append_nextId h
  · intro h
    rw [saveCloneAttempt_fst, h]
    rfl
  · intro h
    have hm : db.attempts.map (·.id) ≠ [] := by
      simpa using h
    rw [saveCloneAttempt_fst]
    exact ⟨getNextId_sub_one_mem hm,
      fun i hi => Int.le_sub_one_of_lt (lt_getNextId hi)⟩
  · rw [saveCloneAttempt_fst]
    exact nextId_fresh _
  · intro h
    rw [saveCloneAttempt_attempts, List.map_append]
    exact nodup_append_nextId h

/-- C8 witness: the allocation theorem applied to the one-record store `dbW`
(whose website and attempt both carry id 1), discharging the nonemptiness and
distinctness hypotheses there. -/
theorem idAllocation_spec_witness :
    (dbW.websites ≠ [] ∧
      ((saveWebsite dbW wU).1 - 1) ∈ dbW.websites.map (·.id)) ∧
    ((dbW.websites.map (·.id)).Nodup ∧
      ((saveWebsite dbW wU).2.websites.map (·.id)).Nodup) ∧
    (dbW.attempts = [] → False) ∧
    ((saveCloneAttempt dbW aDangling).1 - 1) ∈ dbW.attempts.map (·.id) :=
  ⟨⟨by decide, ((idAllocation_spec dbW wU aDangling).2.1 (by decide)).1⟩,
   ⟨by decide, (idAllocation_spec dbW wU aDangling).2.2.2.1 (by decide)⟩,
   fun h => by simp [dbW] at h,
   ((idAllocation_spec dbW wU aDangling).2.2.2.2.2.1 (by decide)).1⟩

theorem stripWebsite_mkWebsite (w : WebsiteInput) (i : Int) :
    stripWebsite (mkWebsite w i) = w := rfl

theorem stripAttempt_mkAttempt (a : AttemptInput) (i : Int) :
    stripAttempt (mkAttempt a i) = deriveAttempt a := rfl

/-- A batch of `saveWebsite` calls appends exactly one record per input, each
preserving the caller's fields, and leaves the attempt collection alone. -/
theorem saveWebsites_batch (ws : List WebsiteInput) (db : Db) :
    ∃ cw, (saveWebsites db ws).websites = db.websites ++ cw ∧
      cw.map stripWebsite = ws ∧
      (saveWebsites db ws).attempts = db.attempts := by
  induction ws generalizing db with
  | nil => exact ⟨[], by simp [saveWebsites], rfl, rfl⟩
  | cons w ws ih =>
    obtain ⟨cw, h1, h2, h3⟩ := ih (saveWebsite db w).2
    have hstep : saveWebsites db (w :: ws) = saveWebsites (saveWebsite db w).2 ws := rfl
    refine ⟨mkWebsite w (getNextId (db.websites.map (·.id))) :: cw, ?_, ?_, ?_⟩
    · rw [hstep, h1, saveWebsite_websites, List.append_assoc]
      rfl
    · rw [List.map_cons, stripWebsite_mkWebsite, h2]
    · rw [hstep, h3, saveWebsite_attempts]

/-- A batch of `saveCloneAttempt` calls appends exactly one record per input,
each preserving the caller's fields except the recomputed derived ones, and
leaves the website collection alone. -/
theorem saveAttempts_batch (as' : List AttemptInput) (db : Db) :
    ∃ ca, (saveAttempts db as').attempts = db.attempts ++ ca ∧
      ca.map stripAttempt = as'.map deriveAttempt ∧
      (saveAttempts db as').websites = db.websites := by
  induction as' generalizing db with
  | nil => exact ⟨[], by simp [saveAttempts], rfl, rfl⟩
  | cons a as' ih =>
    obtain ⟨ca, h1, h2, h3⟩ := ih (saveCloneAttempt db a).2
    have hstep : saveAttempts db (a :: as') = saveAttempts (saveCloneAttempt db a).2 as' := rfl
    refine ⟨mkAttempt a (getNextId (db.attempts.map (·.id))) :: ca, ?_, ?_, ?_⟩
    · rw [hstep, h1, saveCloneAttempt_attempts, List.append_assoc]
      rfl
    · rw [List.map_cons, stripAttempt_mkAttempt, List.map_cons, h2]
    · rw [hstep, h3, saveCloneAttempt_websites]

/-- C9: after writing K websites and M attempts on top of any starting state,
`exportData` returns the starting records followed by exactly K new website
records and exactly M new attempt records; stripping the allocated ids
recovers every caller-supplied field value exactly (for attempts, with the two
derived fields recomputed from `generated_code` at write time, as stored). -/
theorem exportData_roundTrip (db : Db) (ws : List WebsiteInput)
    (as' : List AttemptInput) :
    ∃ cw ca,
      exportData (saveAttempts (saveWebsites db ws) as')
        = (db.websites ++ cw, db.attempts ++ ca) ∧
      cw.length = ws.length ∧ ca.length = as'.length ∧
      cw.map stripWebsite = ws ∧
      ca.map stripAttempt = as'.map deriveAttempt := by
  obtain ⟨cw, hw1, hw2, hw3⟩ := saveWebsites_batch ws db
  obtain ⟨ca, ha1, ha2, ha3⟩ := saveAttempts_batch as' (saveWebsites db ws)
  refine ⟨cw, ca, ?_, ?_, ?_, hw2, ha2⟩
  · have hx : exportData (saveAttempts (saveWebsites db ws) as')
        = ((saveAttempts (saveWebsites db ws) as').websites,
           (saveAttempts (saveWebsites db ws) as').attempts) := rfl
    rw [hx, ha3, hw1, ha1, hw3]
  · rw [← hw2, List.length_map]
  · have := congrArg List.length ha2
    simpa using this

/-- `getModelStats` on a model with no recorded attempts. -/
theorem getModelStats_eq_none {db : Db} {M : String}
    (h : (getCloneAttemptsByModel db M).length = 0) :
    getModelStats db M = none := by
  simp only [getModelStats]
  rw [if_pos h]

/-- `getModelStats` on a model with at least one recorded attempt, with every
field written out over the sorted attempt list. -/
theorem getModelStats_eq_some {db : Db} {M : String}
    (h : ¬ (getCloneAttemptsByModel db M).length = 0) :
    getModelStats db M = some
      { total_attempts := (getCloneAttemptsByModel db M).length,
        success_rate := ((successFilter (getCloneAttemptsByModel db M)).length : ℚ)
            / ((getCloneAttemptsByModel db M).length : ℚ) * 100,
        avg_generation_time_ms := ((getCloneAttemptsByModel db M).map
              (fun a => a.generation_time_ms.getD 0)).sum
            / ((getCloneAttemptsByModel db M).length : ℚ),
        avg_code_size_bytes := jsDiv
            ((successFilter (getCloneAttemptsByModel db M)).map
              (fun a => a.code_size_bytes.getD 0)).sum
            ((successFilter (getCloneAttemptsByModel db M)).length : ℚ),
        last_used := (getCloneAttemptsByModel db M).head?.map (·.created_at) } := by
  simp only [getModelStats]
  rw [if_neg h]

/-- C6: for a model with no recorded attempts `getModelStats` returns `none`;
for a model with at least one, it returns a stats value whose attempt count,
success percentage, and mean generation time are computed over all of that
model's attempts, and whose mean code size is computed over the successful
attempts only (stated here over the unsorted filtered collection, which the
method's newest-first sort permutes). -/
theorem getModelStats_spec (db : Db) (M : String) :
    (attemptsForModel db M = [] → getModelStats db M = none) ∧
    (attemptsForModel db M ≠ [] →
      ∃ s, getModelStats db M = some s ∧
        s.total_attempts = (attemptsForModel db M).length ∧
        s.success_rate
          = ((successFilter (attemptsForModel db M)).length : ℚ)
              / ((attemptsForModel db M).length : ℚ) * 100 ∧
        s.avg_generation_time_ms
          = ((attemptsForModel db M).map (fun a => a.generation_time_ms.getD 0)).sum
              / ((attemptsForModel db M).length : ℚ) ∧
        (successFilter (attemptsForModel db M) ≠ [] →
          s.avg_code_size_bytes
            = JsNum.num
                (((successFilter (attemptsForModel db M)).map
                    (fun a => a.code_size_bytes.getD 0)).sum
                  / ((successFilter (attemptsForModel db M)).length : ℚ)))) := by
  have hperm : (getCloneAttemptsByModel db M).Perm (attemptsForModel db M) :=
    List.mergeSort_perm (attemptsForModel db M) _
  have hpermS : (successFilter (getCloneAttemptsByModel db M)).Perm
      (successFilter (attemptsForModel db M)) :=
    hperm.filter _
  constructor
  · intro h0
    exact getModelStats_eq_none (by rw [hperm.length_eq, h0]; rfl)
  · intro h0
    have hlen0 : ¬ (getCloneAttemptsByModel db M).length = 0 := by
      rw [hperm.length_eq]
      exact fun hc => h0 (List.length_eq_zero.mp hc)
    refine ⟨_, getModelStats_eq_some hlen0, ?_, ?_, ?_, ?_⟩
    · exact hperm.length_eq
    · show ((successFilter (getCloneAttemptsByModel db M)).length : ℚ)
          / ((getCloneAttemptsByModel db M).length : ℚ) * 100 = _
      rw [hpermS.length_eq, hperm.length_eq]
    · show ((getCloneAttemptsByModel db M).map
          (fun a => a.generation_time_ms.getD 0)).sum
          / ((getCloneAttemptsByModel db M).length : ℚ) = _
      rw [(hperm.map _).sum_eq, hperm.length_eq]
    · intro hS
      have hSlen : ((successFilter (attemptsForModel db M)).length : ℚ) ≠ 0 :=
        Nat.cast_ne_zero.mpr (fun hc => hS (List.length_eq_zero.mp hc))
      show jsDiv ((successFilter (getCloneAttemptsByModel db M)).map
            (fun a => a.code_size_bytes.getD 0)).sum
          ((successFilter (getCloneAttemptsByModel db M)).length : ℚ) = _
      rw [(hpermS.map _).sum_eq, hpermS.length_eq, jsDiv_of_ne_zero hSlen]

/-- An attempt for model `"m"` / provider `"x"` with the given id, timestamp,
generation time, and status, and code size 100. -/
def mkStatsAttempt (i : Int) (t : Nat) (gen : ℚ) (st : String) : CloneAttempt :=
  { id := i, website_id := 1, model_used := "m", provider := "x",
    created_at := t, status := st, generation_time_ms := some gen,
    code_size_bytes := some 100 }

/-- Three attempts for model `"m"`: durations 3000, 4000, 5000 ms with
statuses success, success, error. -/
def dbStats : Db :=
  ⟨[], [mkStatsAttempt 1 1 3000 "success", mkStatsAttempt 2 2 4000 "success",
        mkStatsAttempt 3 3 5000 "error"]⟩

/-- C6 witness: on the three-attempt fixture the stats theorem yields
`total_attempts = 3`, `avg_generation_time_ms = 4000`, and a success rate
within 0.01 of 66.67. -/
theorem getModelStats_spec_witness :
    attemptsForModel dbStats "m" ≠ [] ∧
    ∃ s, getModelStats dbStats "m" = some s ∧ s.total_attempts = 3 ∧
      s.avg_generation_time_ms = 4000 ∧ |s.success_rate - 6667/100| ≤ 1/100 := by
  obtain ⟨s, hs, ht, hr, hg, _⟩ :=
    (getModelStats_spec dbStats "m").2 (by decide)
  have hF : attemptsForModel dbStats "m"
      = [mkStatsAttempt 1 1 3000 "success", mkStatsAttempt 2 2 4000 "success",
         mkStatsAttempt 3 3 5000 "error"] := rfl
  have hl1 : (attemptsForModel dbStats "m").length = 3 := by rw [hF]; rfl
  have hl2 : (successFilter (attemptsForModel dbStats "m")).length = 2 := by
    rw [hF]; rfl
  refine ⟨by decide, s, hs, ?_, ?_, ?_⟩
  · rw [ht, hl1]
  · rw [hg, hF]
    simp only [List.map_cons, List.map_nil, mkStatsAttempt, Option.getD_some,
      List.sum_cons, List.sum_nil, List.length_cons, List.length_nil]
    norm_num
  · rw [hr, hl1, hl2]
    rw [abs_le]
    constructor <;> norm_num

/-- A single failed attempt for model `"m"` / provider `"x"`. -/
def dbErr : Db := ⟨[], [mkStatsAttempt 1 1 3000 "error"]⟩

/-- C10: for a model with at least one attempt but none successful,
`getModelStats` still returns a stats value, and its `avg_code_size_bytes` is
the unguarded division of 0 by 0 — `NaN`; `getProviderComparison`, by
contrast, maps the same zero-success situation to `avg_code_size = 0` through
its explicit `|| 0` fallback. -/
theorem zeroSuccess_divByZero (db : Db) (M p : String) :
    ((attemptsForModel db M ≠ [] ∧
        ∀ a ∈ attemptsForModel db M, a.status ≠ "success") →
      ∃ s, getModelStats db M = some s ∧ s.total_attempts ≠ 0 ∧
        s.avg_code_size_bytes = JsNum.nan) ∧
    ((p ∈ db.attempts.map (·.provider) ∧
        ∀ a ∈ db.attempts.filter (fun a => a.provider == p),
          a.status ≠ "success") →
      ∃ e, e ∈ getProviderComparison db ∧ e.provider = p ∧
        e.avg_code_size = JsNum.num 0) := by
  constructor
  · rintro ⟨h0, hns⟩
    have hperm : (getCloneAttemptsByModel db M).Perm (attemptsForModel db M) :=
      List.mergeSort_perm (attemptsForModel db M) _
    have hlen0 : ¬ (getCloneAttemptsByModel db M).length = 0 := by
      rw [hperm.length_eq]
      exact fun hc => h0 (List.length_eq_zero.mp hc)
    have hS : successFilter (getCloneAttemptsByModel db M) = [] := by
      refine List.filter_eq_nil_iff.mpr ?_
      intro a ha
      simp only [beq_iff_eq]
      exact hns a (hperm.mem_iff.mp ha)
    refine ⟨_, getModelStats_eq_some hlen0, hlen0, ?_⟩
    show jsDiv ((successFilter (getCloneAttemptsByModel db M)).map
          (fun a => a.code_size_bytes.getD 0)).sum
        ((successFilter (getCloneAttemptsByModel db M)).length : ℚ) = JsNum.nan
    rw [hS]
    rfl
  · rintro ⟨hp, hns⟩
    have hS : successFilter
        (db.attempts.filter (fun a => a.provider == p)) = [] := by
      refine List.filter_eq_nil_iff.mpr ?_
      intro a ha
      simp only [beq_iff_eq]
      exact hns a ha
    refine ⟨providerEntry db.attempts p, ?_, rfl, ?_⟩
    · have hmem : providerEntry db.attempts p ∈
          (setDedup (db.attempts.map (·.provider))).map
            (fun q => providerEntry db.attempts q) :=
        List.mem_map_of_mem _ ((mem_setDedup _ _).mpr hp)
      exact (List.mergeSort_perm _ entryLe).mem_iff.mpr hmem
    · show jsOrZero (jsDiv ((successFilter
            (db.attempts.filter (fun a => a.provider == p))).map
            (fun a => a.code_size_bytes.getD 0)).sum
          ((successFilter
            (db.attempts.filter (fun a => a.provider == p))).length : ℚ))
        = JsNum.num 0
      rw [hS]
      rfl

/-- C10 witness: on the single-failed-attempt fixture, `getModelStats "m"`
reports `NaN` for the mean code size while `getProviderComparison` reports 0
for provider `"x"`. -/
theorem zeroSuccess_divByZero_witness :
    (attemptsForModel dbErr "m" ≠ [] ∧
      ∀ a ∈ attemptsForModel dbErr "m", a.status ≠ "success") ∧
    (∃ s, getModelStats dbErr "m" = some s ∧ s.total_attempts ≠ 0 ∧
      s.avg_code_size_bytes = JsNum.nan) ∧
    ("x" ∈ dbErr.attempts.map (·.provider) ∧
      ∀ a ∈ dbErr.attempts.filter (fun a => a.provider == "x"),
        a.status ≠ "success") ∧
    (∃ e, e ∈ getProviderComparison dbErr ∧ e.provider = "x" ∧
      e.avg_code_size = JsNum.num 0) := by
  have h1 : attemptsForModel dbErr "m" ≠ [] ∧
      ∀ a ∈ attemptsForModel dbErr "m", a.status ≠ "success" := by decide
  have h2 : "x" ∈ dbErr.attempts.map (·.provider) ∧
      ∀ a ∈ dbErr.attempts.filter (fun a => a.provider == "x"),
        a.status ≠ "success" := by decide
  exact ⟨h1, (zeroSuccess_divByZero dbErr "m" "x").1 h1, h2,
    (zeroSuccess_divByZero dbErr "m" "x").2 h2⟩

end SimpleDb
